import Mathlib

/-!
Shallow embedding of the repochkr dependency-intelligence pipeline
(src/dependency_parsers.py, src/vuln_lookup.py, src/risk_model.py)
and proofs about the behaviour its specification describes.

Python strings are modelled by Lean `String` / `List Char`; machine-level
concerns (unicode beyond ASCII identifiers, float arithmetic) are either
irrelevant to the functions embedded here or abstracted as noted at the
definition concerned.
-/

namespace RepoChkr

/-! ## Python string primitives -/

/-- Characters removed by Python `str.strip()` (ASCII whitespace set). -/
def isPySpace (c : Char) : Bool :=
  c = ' ' ∨ c = '\t' ∨ c = '\n' ∨ c = '\x0d' ∨ c = '\x0b' ∨ c = '\x0c'

/-- `str.strip()` on a character list: drop leading and trailing whitespace. -/
def pyStripL (l : List Char) : List Char :=
  ((l.dropWhile isPySpace).reverse.dropWhile isPySpace).reverse

/-- `str.strip()` on a string. -/
def pyStrip (s : String) : String :=
  String.mk (pyStripL s.data)

/-- `str.split()` with no separator: split on runs of whitespace, dropping
empty tokens. Accumulator-based single pass. -/
def pySplitWsAux : List Char → List Char → List (List Char)
  | [], acc => if acc = [] then [] else [acc.reverse]
  | c :: cs, acc =>
    if isPySpace c then
      if acc = [] then pySplitWsAux cs [] else acc.reverse :: pySplitWsAux cs []
    else pySplitWsAux cs (c :: acc)

def pySplitWs (l : List Char) : List (List Char) :=
  pySplitWsAux l []

/-- Python truthiness-based `or` on strings: `a or b`. -/
def pyOrStr (a b : String) : String :=
  if a = "" then b else a

/-- `str.startswith`. -/
def pyStartswith (s pre : String) : Bool :=
  pre.data.isPrefixOf s.data

/-- `str.endswith`. -/
def pyEndswith (s suf : String) : Bool :=
  suf.data.isSuffixOf s.data

/-- `str.lower()` (the labels handled here are ASCII). -/
def pyLower (s : String) : String :=
  String.mk (s.data.map Char.toLower)

/-- `str.upper()` (the labels handled here are ASCII). -/
def pyUpper (s : String) : String :=
  String.mk (s.data.map Char.toUpper)

/-- Split a character list on a separator character, keeping empty pieces
(the semantics of splitting text on a line separator). -/
def splitListOn (sep : Char) : List Char → List Char → List (List Char)
  | [], acc => [acc.reverse]
  | c :: cs, acc => if c = sep then acc.reverse :: splitListOn sep cs [] else splitListOn sep cs (c :: acc)

/-- `str.splitlines()`, modelled as splitting on a line feed. A manifest
ending in a newline yields one extra empty fragment here that `splitlines`
omits; every line-oriented parser embedded below skips empty lines, so the
two readings agree on parser output. -/
def pySplitlines (s : String) : List String :=
  (splitListOn '\n' s.data []).map String.mk

/-! ## dependency_parsers.py -/

/-- A normalized dependency record (the dict produced by `_normalize_dep`). -/
structure Dependency where
  ecosystem : String
  name : String
  version : String
  scope : String
  manifest_path : String
deriving DecidableEq, Repr

/-- The character class of the regex `r"^[~^><=\\s]+"` in `_clean_version`
exactly as written in the source: inside a raw string, `\\` is an escaped
backslash, so the class contains a literal backslash and a literal letter
`s` — not the whitespace class `\s`. -/
def cleanVersionClass : List Char := ['~', '^', '>', '<', '=', '\\', 's']

/-- `_clean_version`: strip surrounding whitespace, then drop the leading run
of characters from the regex class above; if the result is empty, return the
original (unstripped) argument. -/
def _clean_version (version : String) : String :=
  let v := pyStrip version
  let v2 := String.mk (v.data.dropWhile (fun c => cleanVersionClass.contains c))
  if v2 = "" then version else v2

/-- `_normalize_dep`. -/
def _normalize_dep (ecosystem name version scope manifest_path : String) : Dependency :=
  { ecosystem := ecosystem
    name := pyStrip name
    version := _clean_version version
    scope := scope
    manifest_path := manifest_path }

/-- One step of the comparator scan of `re.split(r"(==|>=|<=|~=|!=)", line,
maxsplit=1)`: does one of the five two-character operators occur at the head
of this suffix? Returns the text after the operator. The five operators have
pairwise distinct first characters, so regex alternation order is immaterial. -/
def opAt : List Char → Option (List Char)
  | '=' :: '=' :: rest => some rest
  | '>' :: '=' :: rest => some rest
  | '<' :: '=' :: rest => some rest
  | '~' :: '=' :: rest => some rest
  | '!' :: '=' :: rest => some rest
  | _ => none

/-- Leftmost comparator split: `(text before, text after)` of the first
occurrence of one of the five operators, or `none`. -/
def findOpSplit : List Char → Option (List Char × List Char)
  | [] => none
  | c :: cs =>
    match opAt (c :: cs) with
    | some rest => some ([], rest)
    | none =>
      match findOpSplit cs with
      | some (pre, post) => some (c :: pre, post)
      | none => none

/-- `parse_requirements_txt` applied to one line (the loop body). -/
def requirementsLineDeps (path : String) (line : String) : List Dependency :=
  let l := pyStrip line
  if l = "" then []
  else if pyStartswith l "#" then []
  else
    match findOpSplit l.data with
    | some (pre, post) =>
      [_normalize_dep "pypi" (String.mk pre) (String.mk post) "runtime" path]
    | none => [_normalize_dep "pypi" l "*" "runtime" path]

/-- `parse_requirements_txt`. `str.splitlines()` is modelled as splitting on
a line feed; a trailing empty fragment is discarded by the blank-line guard,
so the two agree on every manifest ending (or not) in a newline. -/
def parse_requirements_txt (content : String) (path : String) : List Dependency :=
  (pySplitlines content).flatMap (requirementsLineDeps path)

/-- `parse_go_mod` applied to one line (the loop body). The `require` branch
rewrites the loop variable and then `continue`s, so the rewritten text is
discarded: any line whose stripped form starts with `require` contributes
nothing. -/
def goModLineDeps (path : String) (line : String) : List Dependency :=
  let l := pyStripL line.data
  if l = [] then []
  else if ("//".data).isPrefixOf l then []
  else if ("module".data).isPrefixOf l then []
  else if ("require".data).isPrefixOf l then []
  else
    match pySplitWs l with
    | p0 :: p1 :: _ => [_normalize_dep "go" (String.mk p0) (String.mk p1) "runtime" path]
    | _ => []

/-- `parse_go_mod` over an explicit line list. -/
def goModLinesDeps (path : String) (lines : List String) : List Dependency :=
  lines.flatMap (goModLineDeps path)

/-- `parse_go_mod`. -/
def parse_go_mod (content : String) (path : String) : List Dependency :=
  goModLinesDeps path (pySplitlines content)

/-- Python exceptions that the embedded code can raise. -/
inductive PyExc where
  | jsonDecodeError
  | tomlDecodeError
  | xmlParseError
  | indexError
  | keyError
  | httpError (code : Nat)
  | otherError
deriving DecidableEq, Repr

/-- A manifest handler: `(content, path) -> deps`, or a raised exception. -/
def Handler : Type := String → String → Except PyExc (List Dependency)

/-- The keys of the `HANDLERS` dict, in source order. -/
def HANDLER_KEYS : List String :=
  ["package.json", "requirements.txt", "pyproject.toml", "Pipfile", "Pipfile.lock",
   "poetry.lock", "go.mod", "Cargo.toml", "pom.xml", "build.gradle", "build.gradle.kts"]

/-- The `HANDLERS` dict as an association list. The two line-oriented parsers
(`parse_requirements_txt`, `parse_go_mod`) are pure string processing and are
embedded above; they cannot raise, so they are wrapped in `.ok`. The remaining
handlers parse JSON/TOML/XML documents through library parsers that are not
embedded here; they are taken as parameters, so every theorem about dispatch
holds for arbitrary behaviour (including arbitrary raised exceptions) of those
handlers. -/
def mkHANDLERS (pkgJson pyprojectToml pipfile poetryLock cargoToml pomXml gradle : Handler) :
    List (String × Handler) :=
  [("package.json", pkgJson),
   ("requirements.txt", fun content path => .ok (parse_requirements_txt content path)),
   ("pyproject.toml", pyprojectToml),
   ("Pipfile", pipfile),
   ("Pipfile.lock", pipfile),
   ("poetry.lock", poetryLock),
   ("go.mod", fun content path => .ok (parse_go_mod content path)),
   ("Cargo.toml", cargoToml),
   ("pom.xml", pomXml),
   ("build.gradle", gradle),
   ("build.gradle.kts", gradle)]

/-- `pathlib.Path(path).name` for POSIX paths: the final `/`-separated
component. -/
def pathName (path : String) : String :=
  ((splitListOn '/' path.data []).map String.mk).getLastD ""

/-- `parse_manifest`, parameterised by the handler table: dispatch on the
file name with `HANDLERS.get`; no handler means an empty result, and a raised
handler exception is swallowed into an empty result. -/
def parse_manifest (handlers : List (String × Handler)) (path content : String) :
    List Dependency :=
  match List.lookup (pathName path) handlers with
  | none => []
  | some h =>
    match h content path with
    | .ok deps => deps
    | .error _ => []

/-- An entry of the repository file listing consumed by `detect_manifests`:
`f.get("name")` and `f["path"]`. -/
structure FileEntry where
  name : Option String
  path : String
deriving DecidableEq, Repr

/-- `detect_manifests`: a file is a manifest when its name is a `HANDLERS`
key, or when it is non-empty, starts with `requirements` and ends with
`.txt`. A missing name (`None`) fails both tests. -/
def detect_manifests (files : List FileEntry) : List String :=
  files.filterMap fun f =>
    match f.name with
    | none => none
    | some n =>
      if HANDLER_KEYS.contains n ∨ (n ≠ "" ∧ pyStartswith n "requirements" ∧ pyEndswith n ".txt")
      then some f.path else none

/-! ## vuln_lookup.py -/

/-- One element of an advisory's `severity` array: `{type, score}`. The
score is kept as its raw JSON text; Python's `float()` conversion is taken
as a parameter `pf` below (a score that `float()` accepts is a `some`). -/
structure SevEntry where
  stype : Option String
  score : Option String
deriving DecidableEq, Repr

/-- An `events` element: `{introduced: v}` and/or `{fixed: v}`. -/
structure OsvEvent where
  introduced : Option String
  fixed : Option String
deriving DecidableEq, Repr

/-- A `ranges` element. -/
structure OsvRange where
  events : List OsvEvent
deriving DecidableEq, Repr

/-- An `affected` element. -/
structure OsvAffected where
  ranges : List OsvRange
  versions : List String
deriving DecidableEq, Repr

/-- A `references` element. -/
structure RefEntry where
  url : Option String
deriving DecidableEq, Repr

/-- One advisory object of the `vulns` array. `references` distinguishes an
absent key (`none`, for which the source substitutes the default `[{}]`)
from a present-but-empty array (`some []`, on which `[0]` raises). -/
structure Advisory where
  advId : Option String
  aliases : List String
  summary : Option String
  details : Option String
  severity : List SevEntry
  affected : List OsvAffected
  references : Option (List RefEntry)
deriving DecidableEq, Repr

/-- The normalized vulnerability record built by `lookup`. `cvss_score`
models the Python float as a rational. -/
structure VulnRecord where
  rid : String
  summary : String
  severity : String
  cvss_score : Option Rat
  affected_range : String
  fixed_versions : List String
  reference_url : String
deriving DecidableEq, Repr

/-- The `severity`/`score` accumulation loop: `severity = s.get("type",
severity)` and `score = float(s.get("score"))` with `TypeError`/`ValueError`
mapped to `None`, both overwritten on every iteration. -/
def sevStep (pf : String → Option Rat) (p : String × Option Rat) (s : SevEntry) :
    String × Option Rat :=
  (s.stype.getD p.1,
   match s.score with
   | none => none
   | some raw => pf raw)

/-- Formatting of one `events` element inside the first ranges group:
`>=introduced` and/or `<fixed`. -/
def eventParts (ev : OsvEvent) : List String :=
  (match ev.introduced with | some x => [">=" ++ x] | none => []) ++
  (match ev.fixed with | some x => ["<" ++ x] | none => [])

/-- The `fixed` versions collected while formatting the first ranges group. -/
def eventFixed (evs : List OsvEvent) : List String :=
  evs.filterMap OsvEvent.fixed

/-- The `affected` accumulation loop: state is `(affected_range,
fixed_versions-as-collected)`. For each affected entry with a non-empty
`ranges` array the range display is rebuilt from the first group's events
(overwriting the previous value) and that group's `fixed` versions are
collected; `versions` are always collected. -/
def affectedStep (p : String × List String) (aff : OsvAffected) : String × List String :=
  match aff.ranges with
  | [] => (p.1, p.2 ++ aff.versions)
  | r0 :: _ =>
    (String.intercalate " " ((r0.events).flatMap eventParts),
     p.2 ++ eventFixed r0.events ++ aff.versions)

/-- Insertion into an ascending list (structural insertion sort). -/
def insertAsc (x : String) : List String → List String
  | [] => [x]
  | y :: ys => if x ≤ y then x :: y :: ys else y :: insertAsc x ys

/-- `sorted(set(xs))` for strings: duplicates removed, then sorted
ascending by code point (insertion sort; on distinct elements every sort
yields the same ascending list). -/
def sortedSet (xs : List String) : List String :=
  (xs.dedup).foldr insertAsc []

/-- `v.get("references", [{}])[0].get("url", "")`: an absent key defaults to
`[{}]` whose first element yields `""`; a present empty array raises
`IndexError`; otherwise the first entry's `url` (default `""`). -/
def referenceUrl : Option (List RefEntry) → Except PyExc String
  | none => .ok ""
  | some [] => .error .indexError
  | some (r :: _) => .ok (r.url.getD "")

/-- Normalization of one advisory into a `VulnRecord` (the body of the
`for v in data.get("vulns", [])` loop). `pf` is Python's `float()` on the
raw score text. The `id` expression is embedded with Python's operator
precedence: `(v.get("id") or aliases[0]) if aliases else ""`. -/
def normalizeAdvisory (pf : String → Option Rat) (v : Advisory) :
    Except PyExc VulnRecord :=
  match referenceUrl v.references with
  | .error e => .error e
  | .ok refUrl =>
    let sevScore := v.severity.foldl (sevStep pf) ("UNKNOWN", none)
    let affAcc := v.affected.foldl affectedStep ("", [])
    .ok
      { rid :=
          match v.aliases with
          | [] => ""
          | a0 :: _ =>
            match v.advId with
            | none => a0
            | some i => if i = "" then a0 else i
        summary := pyOrStr (v.summary.getD "") (v.details.getD "")
        severity := sevScore.1
        cvss_score := sevScore.2
        affected_range := affAcc.1
        fixed_versions := sortedSet affAcc.2
        reference_url := refUrl }

/-- One HTTP response of the vulnerability service, as `lookup` observes it:
its status code, and the payload `resp.json()` yields — `none` when the body
is not JSON (a raised `JSONDecodeError`), otherwise `data.get("vulns", [])`
already extracted (an absent `vulns` key is the empty list). -/
structure Resp where
  status : Nat
  vulnsBody : Option (List Advisory)
deriving Repr

/-- How the `while tries < 3` loop ends. -/
inductive LoopRes where
  /-- status 400: cache and return the empty list. -/
  | ret400
  /-- `resp.raise_for_status()` raised (any other status of 400..599). -/
  | httpRaise (code : Nat)
  /-- control reached `data = resp.json()` with this response — either via
  `break` on a non-error status, or by falling out of the loop after three
  rate-limited attempts (`last` is then the third 429/503 response). -/
  | proceed (r : Resp)
deriving Repr

/-- The retry loop. `net n` is the response to the `n`-th POST. Returns the
list of `time.sleep` durations performed and how the loop ended. `fuel` is
`3 - tries`; `last` is the most recent response, returned when the loop
condition `tries < 3` fails. -/
def retryLoop (net : Nat → Resp) : Nat → Nat → Resp → List Nat × LoopRes
  | 0, _, last => ([], .proceed last)
  | fuel + 1, tries, _ =>
    let r := net tries
    if r.status = 400 then ([], .ret400)
    else if r.status = 429 ∨ r.status = 503 then
      let rest := retryLoop net fuel (tries + 1) r
      (2 ^ tries :: rest.1, rest.2)
    else if 400 ≤ r.status ∧ r.status < 600 then ([], .httpRaise r.status)
    else ([], .proceed r)

/-- Cache key: `(ecosystem.lower(), name.lower(), version)`. -/
abbrev CacheKey : Type := String × String × String

/-- The observable outcome of one `lookup` call: sleeps performed, the value
returned (or exception raised), and the cache afterwards. -/
structure LookupOut where
  sleeps : List Nat
  result : Except PyExc (List VulnRecord)
  cacheOut : List (CacheKey × List VulnRecord)
deriving Repr

/-- `VulnerabilityLookup.lookup`. `pf` abstracts `float()`, `net` the network,
`cache` is `self.cache` as an association list (most recent first). -/
def lookup (pf : String → Option Rat) (net : Nat → Resp)
    (cache : List (CacheKey × List VulnRecord))
    (ecosystem nm version : String) : LookupOut :=
  let key : CacheKey := (pyLower ecosystem, pyLower nm, version)
  match List.lookup key cache with
  | some recs => ⟨[], .ok recs, cache⟩
  | none =>
    if nm = "" ∨ version = "" ∨ version = "*" then
      ⟨[], .ok [], (key, []) :: cache⟩
    else
      let run := retryLoop net 3 0 (net 0)
      match run.2 with
      | .ret400 => ⟨run.1, .ok [], (key, []) :: cache⟩
      | .httpRaise c => ⟨run.1, .error (.httpError c), cache⟩
      | .proceed r =>
        match r.vulnsBody with
        | none => ⟨run.1, .error .jsonDecodeError, cache⟩
        | some advisories =>
          match advisories.mapM (normalizeAdvisory pf) with
          | .error e => ⟨run.1, .error e, cache⟩
          | .ok recs => ⟨run.1, .ok recs, (key, recs) :: cache⟩

/-! ## risk_model.py -/

/-- `SEVERITY_WEIGHTS`. -/
def SEVERITY_WEIGHTS : List (String × Nat) :=
  [("CRITICAL", 5), ("HIGH", 4), ("MEDIUM", 3), ("LOW", 1), ("UNKNOWN", 1)]

/-- `severity_rank`: weight of the upper-cased label, defaulting to 1. -/
def severity_rank (s : String) : Nat :=
  (List.lookup (pyUpper s) SEVERITY_WEIGHTS).getD 1

/-- The slice of a vulnerability dict that `risk_model` reads:
`v.get("severity", "LOW")`. -/
structure VulnDict where
  severity : Option String
deriving DecidableEq, Repr

/-- The slice of a dependency dict that `risk_model` reads:
`dep.get("scope")`. -/
structure DepDict where
  scope : Option String
deriving DecidableEq, Repr

/-- One element of the `deps_with_vulns` list fed to `repo_risk`. -/
structure FindingItem where
  dependency : DepDict
  vulnerabilities : List VulnDict
deriving DecidableEq, Repr

/-- Python `max` over a non-empty list of naturals, first element split off. -/
def pyMaxNat (x : Nat) (xs : List Nat) : Nat :=
  xs.foldl Nat.max x

/-- Python `max(..., key=f)` over a non-empty list: keeps the first element
whose key is maximal (`>` comparison against the current best). -/
def pyMaxBy (f : String → Nat) (x : String) (xs : List String) : String :=
  xs.foldl (fun best y => if f best < f y then y else best) x

/-- `dependency_risk`. -/
def dependency_risk (dep : DepDict) (vulns : List VulnDict) : Nat :=
  if vulns.isEmpty then 0
  else
    let weight :=
      match vulns.map (fun v => severity_rank (v.severity.getD "LOW")) with
      | [] => 0  -- unreachable: guarded by the isEmpty test
      | r :: rs => pyMaxNat r rs
    let scope_boost := if dep.scope = some "runtime" then 1 else 0
    weight + scope_boost

/-- The dict returned by `repo_risk`. -/
structure RepoSummary where
  risk_score : Nat
  highest_severity : String
  vulnerable_dependencies : Nat
deriving DecidableEq, Repr

/-- The `repo_risk` loop over findings, carrying `score`, `highest` and
`vuln_count`. -/
def repoRiskGo : List FindingItem → Nat → String → Nat → RepoSummary
  | [], score, highest, cnt => ⟨score, highest, cnt⟩
  | item :: rest, score, highest, cnt =>
    let vulns := item.vulnerabilities
    if vulns.isEmpty then repoRiskGo rest score highest cnt
    else
      let dep_score := dependency_risk item.dependency vulns
      let sev :=
        match vulns.map (fun v => v.severity.getD "LOW") with
        | [] => "LOW"  -- unreachable: guarded by the isEmpty test
        | s :: ss => pyMaxBy severity_rank s ss
      let highest2 := if severity_rank highest < severity_rank sev then sev else highest
      repoRiskGo rest (score + dep_score) highest2 (cnt + 1)

/-- `repo_risk`: accumulators start at `0`, `"LOW"`, `0`. -/
def repo_risk (deps_with_vulns : List FindingItem) : RepoSummary :=
  repoRiskGo deps_with_vulns 0 "LOW" 0

/-! ## Spec-side definitions

These definitions follow the specification's words, not the source; they
exist to be compared against the source embedding above. -/

/-- The five severity labels the specification enumerates. -/
def severityLabels : List String :=
  ["CRITICAL", "HIGH", "MEDIUM", "LOW", "UNKNOWN"]

/-- The severity weight table exactly as the specification states it
(CRITICAL=5, HIGH=4, MEDIUM=3, LOW=1, UNKNOWN=1). -/
def claimSeverityWeight : String → Nat
  | "CRITICAL" => 5
  | "HIGH" => 4
  | "MEDIUM" => 3
  | "LOW" => 1
  | "UNKNOWN" => 1
  | _ => 0

/-- The severity labels that actually occur among all vulnerabilities of all
findings of a repository. -/
def occurringSeverities (items : List FindingItem) : List String :=
  items.flatMap fun it => it.vulnerabilities.filterMap VulnDict.severity

/-- The highest-severity label per the specification, amended by the observed
accumulator behaviour: the maximum-ranked occurring label when one of
MEDIUM/HIGH/CRITICAL occurs, and LOW otherwise (also when only LOW- or
UNKNOWN-severity vulnerabilities occur, or none at all). -/
def specHighestSeverity (occ : List String) : String :=
  if "CRITICAL" ∈ occ then "CRITICAL"
  else if "HIGH" ∈ occ then "HIGH"
  else if "MEDIUM" ∈ occ then "MEDIUM"
  else "LOW"

/-! ## Auxiliary definitions for proofs and concrete samples -/

/-- The strict-improvement update `repo_risk` applies to its `highest`
accumulator, abstracted over one incoming label. -/
def hstep (b s : String) : String :=
  if severity_rank b < severity_rank s then s else b

/-- The severity labels `repo_risk` actually compares, reading each
vulnerability dict with default LOW. -/
def effectiveSeverities (items : List FindingItem) : List String :=
  items.flatMap fun it => it.vulnerabilities.map (fun v => v.severity.getD "LOW")

/-- A `float()` model that accepts no score text (scores are irrelevant to
the claims evaluated on it). -/
def noFloat : String → Option Rat := fun _ => none

/-- A `float()` model accepting exactly the text 9.8. -/
def floatNinePointEight : String → Option Rat :=
  fun s => if s = "9.8" then some ((98 : Rat) / 10) else none

/-- A network that always answers HTTP 429 with a JSON body holding no
`vulns` key. -/
def alwaysRateLimited : Nat → Resp := fun _ => ⟨429, some []⟩

/-- An advisory whose only severity entry carries the OSV type label
CVSS_V3. -/
def advisoryCvssTyped : Advisory :=
  { advId := some "GHSA-2222", aliases := ["CVE-2022-0002"], summary := some "overflow",
    details := none, severity := [⟨some "CVSS_V3", some "7.5"⟩], affected := [],
    references := none }

/-- An advisory that has an identifier but no aliases. -/
def advisoryIdWithoutAliases : Advisory :=
  { advId := some "GHSA-1234", aliases := [], summary := some "text", details := none,
    severity := [], affected := [], references := none }

/-- The same advisory with one alias added. -/
def advisoryIdWithAlias : Advisory :=
  { advisoryIdWithoutAliases with aliases := ["CVE-2022-0001"] }

/-- An advisory reporting two severity entries, LOW first and CRITICAL
(with score text 9.8) last. -/
def advisoryLowThenCritical : Advisory :=
  { advId := some "GHSA-9999", aliases := ["CVE-2022-0003"], summary := none,
    details := some "detail text",
    severity := [⟨some "LOW", none⟩, ⟨some "CRITICAL", some "9.8"⟩],
    affected := [], references := some [⟨some "https://example.com/adv"⟩] }

/-- An erroring handler registered for package.json, exercising the
exception-swallowing path of the dispatcher. -/
def failingJsonTable : List (String × Handler) :=
  [("package.json", fun _ _ => .error .jsonDecodeError)]

/-- A handler that parses nothing, used to instantiate the unembedded
document-based handlers where their behaviour is irrelevant. -/
def inertHandler : Handler := fun _ _ => .ok []

/-- Sample findings: a dev dependency with a HIGH vulnerability, a clean
runtime dependency, and a runtime dependency with a CRITICAL one. -/
def repoFindingsSample : List FindingItem :=
  [⟨⟨some "dev"⟩, [⟨some "HIGH"⟩]⟩,
   ⟨⟨some "runtime"⟩, []⟩,
   ⟨⟨some "runtime"⟩, [⟨some "CRITICAL"⟩]⟩]

/-! ## Helper lemmas -/

/-- The first component of the severity fold is the last `type` label among
the entries that carry one, defaulting to the initial accumulator. -/
theorem sevFold_fst (pf : String → Option Rat) :
    ∀ (l : List SevEntry) (a : String) (b : Option Rat),
      (l.foldl (sevStep pf) (a, b)).1 = (l.filterMap SevEntry.stype).getLastD a := by
  intro l
  induction l with
  | nil => intro a b; rfl
  | cons s l ih =>
    intro a b
    have h1 : sevStep pf (a, b) s =
        (s.stype.getD a, match s.score with | none => none | some raw => pf raw) := rfl
    rw [List.foldl_cons, h1, ih]
    cases hs : s.stype with
    | none => rw [List.filterMap_cons_none hs, Option.getD_none]
    | some t => rw [List.filterMap_cons_some hs, Option.getD_some, List.getLastD_cons]

/-- Unfolding a membership in the label list into the five equations. -/
theorem mem_severityLabels_iff (s : String) :
    s ∈ severityLabels ↔
      s = "CRITICAL" ∨ s = "HIGH" ∨ s = "MEDIUM" ∨ s = "LOW" ∨ s = "UNKNOWN" := by
  simp [severityLabels]

/-- A left fold of `Nat.max` equals the max of the seed with a right fold
over the same list. -/
theorem foldl_nat_max (l : List Nat) : ∀ a : Nat,
    l.foldl Nat.max a = Nat.max a (l.foldr Nat.max 0) := by
  induction l with
  | nil => intro a; simp
  | cons x xs ih =>
    intro a
    rw [List.foldl_cons, List.foldr_cons, ih]
    exact Nat.max_assoc a x (List.foldr Nat.max 0 xs)

/-- On the five enumerated labels the source's rank table agrees with the
specification's weight table. -/
theorem severity_rank_eq_claimWeight (s : String) (hs : s ∈ severityLabels) :
    severity_rank s = claimSeverityWeight s := by
  rcases (mem_severityLabels_iff s).mp hs with rfl | rfl | rfl | rfl | rfl <;> decide

/-- Under the five-label hypothesis, the ranks the source computes are the
claim weights of the severities present. -/
theorem ranks_eq_claim_weights (vulns : List VulnDict)
    (hall : ∀ v ∈ vulns, ∃ s, v.severity = some s ∧ s ∈ severityLabels) :
    vulns.map (fun v => severity_rank (v.severity.getD "LOW")) =
      (vulns.filterMap VulnDict.severity).map claimSeverityWeight := by
  induction vulns with
  | nil => rfl
  | cons v vs ih =>
    obtain ⟨s, hs, hmem⟩ := hall v (List.mem_cons_self v vs)
    rw [List.map_cons, List.filterMap_cons_some hs, List.map_cons, hs, Option.getD_some,
      severity_rank_eq_claimWeight s hmem,
      ih (fun w hw => hall w (List.mem_cons_of_mem v hw))]

/-- A seed never exceeds a left `Nat.max` fold over it. -/
theorem seed_le_foldl_max (l : List Nat) : ∀ a : Nat, a ≤ l.foldl Nat.max a := by
  induction l with
  | nil => intro a; exact Nat.le_refl a
  | cons x xs ih =>
    intro a
    rw [List.foldl_cons]
    exact Nat.le_trans (Nat.le_max_left a x) (ih (Nat.max a x))

/-- Every member bounds a left `Nat.max` fold from below. -/
theorem mem_le_foldl_max (l : List Nat) : ∀ (a x : Nat), x ∈ l → x ≤ l.foldl Nat.max a := by
  induction l with
  | nil => intro a x hx; cases hx
  | cons y ys ih =>
    intro a x hx
    rw [List.foldl_cons]
    rcases List.mem_cons.mp hx with rfl | hx2
    · exact Nat.le_trans (Nat.le_max_right a x) (seed_le_foldl_max ys (Nat.max a x))
    · exact ih (Nat.max a y) x hx2

/-- A bound on all members and the seed bounds a left `Nat.max` fold. -/
theorem foldl_max_le (l : List Nat) : ∀ (a c : Nat),
    (∀ x ∈ l, x ≤ c) → a ≤ c → l.foldl Nat.max a ≤ c := by
  induction l with
  | nil => intro a c _ hac; exact hac
  | cons y ys ih =>
    intro a c hub hac
    rw [List.foldl_cons]
    refine ih (Nat.max a y) c (fun x hx => hub x (List.mem_cons_of_mem y hx)) ?_
    exact Nat.max_le.mpr ⟨hac, hub y (List.mem_cons_self y ys)⟩

/-- The strict-improvement update associates with the first-maximum
combination Python's `max` performs. -/
theorem hstep_hstep (h x y : String) : hstep (hstep h x) y = hstep h (hstep x y) := by
  unfold hstep
  split_ifs <;> first | rfl | omega

/-- Taking the Python `max` of a non-empty severity list and then updating
the accumulator equals folding the update over the list. -/
theorem pyMaxBy_hstep (xs : List String) : ∀ x h : String,
    hstep h (pyMaxBy severity_rank x xs) = (x :: xs).foldl hstep h := by
  induction xs with
  | nil => intro x h; rfl
  | cons y ys ih =>
    intro x h
    have h1 : pyMaxBy severity_rank x (y :: ys) = pyMaxBy severity_rank (hstep x y) ys := rfl
    rw [h1, ih (hstep x y) h]
    show List.foldl hstep (hstep h (hstep x y)) ys = List.foldl hstep (hstep (hstep h x) y) ys
    rw [hstep_hstep]

/-- The highest-severity accumulator of the repo_risk loop is the fold of
the strict-improvement update over every severity label read from the
findings, in order. -/
theorem repoRiskGo_highest (items : List FindingItem) : ∀ (score : Nat) (h : String) (cnt : Nat),
    (repoRiskGo items score h cnt).highest_severity = (effectiveSeverities items).foldl hstep h := by
  induction items with
  | nil => intro score h cnt; rfl
  | cons item rest ih =>
    intro score h cnt
    cases hv : item.vulnerabilities with
    | nil =>
      show (repoRiskGo (item :: rest) score h cnt).highest_severity = _
      rw [repoRiskGo]
      simp only [hv, List.isEmpty_nil, if_true]
      rw [ih score h cnt]
      simp [effectiveSeverities, hv]
    | cons v vs =>
      rw [repoRiskGo]
      simp only [hv, List.isEmpty_cons, Bool.false_eq_true, if_false, List.map_cons]
      rw [ih]
      show List.foldl hstep (hstep h (pyMaxBy severity_rank _ _)) (effectiveSeverities rest) = _
      rw [pyMaxBy_hstep]
      simp only [effectiveSeverities, List.flatMap_cons, List.foldl_append, hv, List.map_cons]

/-- A fold of the strict-improvement update either keeps the seed or lands
on a member. -/
theorem foldl_hstep_mem (occ : List String) : ∀ h : String,
    occ.foldl hstep h = h ∨ occ.foldl hstep h ∈ occ := by
  induction occ with
  | nil => intro h; exact .inl rfl
  | cons s l ih =>
    intro h
    rw [List.foldl_cons]
    rcases ih (hstep h s) with h1 | h1
    · rw [h1]
      unfold hstep
      split_ifs
      · exact .inr (List.mem_cons_self s l)
      · exact .inl rfl
    · exact .inr (List.mem_cons_of_mem s h1)

/-- The rank of the fold of the strict-improvement update is the `Nat.max`
fold of the ranks. -/
theorem foldl_hstep_rank (occ : List String) : ∀ h : String,
    severity_rank (occ.foldl hstep h) = (occ.map severity_rank).foldl Nat.max (severity_rank h) := by
  induction occ with
  | nil => intro h; rfl
  | cons s l ih =>
    intro h
    rw [List.foldl_cons, List.map_cons, List.foldl_cons, ih]
    have : severity_rank (hstep h s) = Nat.max (severity_rank h) (severity_rank s) := by
      unfold hstep
      split_ifs with hcomp
      · exact (Nat.max_eq_right (Nat.le_of_lt hcomp)).symm
      · exact (Nat.max_eq_left (Nat.not_lt.mp hcomp)).symm
    rw [this]

/-- When no member outranks the seed, the fold keeps the seed. -/
theorem foldl_hstep_fix (occ : List String) : ∀ h : String,
    (∀ s ∈ occ, severity_rank s ≤ severity_rank h) → occ.foldl hstep h = h := by
  induction occ with
  | nil => intro h _; rfl
  | cons s l ih =>
    intro h hub
    rw [List.foldl_cons]
    have hs : hstep h s = h := by
      unfold hstep
      rw [if_neg (Nat.not_lt.mpr (hub s (List.mem_cons_self s l)))]
    rw [hs]
    exact ih h (fun x hx => hub x (List.mem_cons_of_mem s hx))

/-- When every vulnerability carries a severity, the labels the loop reads
with default LOW are exactly the occurring labels. -/
theorem map_getD_eq_filterMap (l : List VulnDict)
    (hl : ∀ v ∈ l, ∃ s, v.severity = some s ∧ s ∈ severityLabels) :
    l.map (fun v => v.severity.getD "LOW") = l.filterMap VulnDict.severity := by
  induction l with
  | nil => rfl
  | cons v vs ih =>
    obtain ⟨s, hs, _⟩ := hl v (List.mem_cons_self v vs)
    rw [List.map_cons, List.filterMap_cons_some hs, hs, Option.getD_some,
      ih (fun w hw => hl w (List.mem_cons_of_mem v hw))]

/-- Under the five-label hypothesis the loop's effective labels coincide
with the occurring severities. -/
theorem effective_eq_occurring (items : List FindingItem)
    (hall : ∀ it ∈ items, ∀ v ∈ it.vulnerabilities,
      ∃ s, v.severity = some s ∧ s ∈ severityLabels) :
    effectiveSeverities items = occurringSeverities items := by
  induction items with
  | nil => rfl
  | cons it rest ih =>
    have h1 := map_getD_eq_filterMap it.vulnerabilities (hall it (List.mem_cons_self it rest))
    have h2 := ih (fun j hj => hall j (List.mem_cons_of_mem it hj))
    simp only [effectiveSeverities, occurringSeverities, List.flatMap_cons] at *
    rw [h1, h2]

/-- A fold of the strict-improvement update from LOW lands on the one label
of maximal rank when that rank beats LOW's. -/
theorem foldl_hstep_eq_label (occ : List String)
    (hocc : ∀ s ∈ occ, s ∈ severityLabels) (lab : String) (hlab : lab ∈ occ) (r : Nat)
    (hr : severity_rank lab = r) (h1r : 1 < r)
    (hub : ∀ s ∈ occ, severity_rank s ≤ r)
    (huniq : ∀ s ∈ severityLabels, severity_rank s = r → s = lab) :
    occ.foldl hstep "LOW" = lab := by
  have hlow : severity_rank "LOW" = 1 := by decide
  have hrank : severity_rank (occ.foldl hstep "LOW") = r := by
    rw [foldl_hstep_rank]
    have hmemr : r ∈ occ.map severity_rank := List.mem_map.mpr ⟨lab, hlab, hr⟩
    have hge := mem_le_foldl_max (occ.map severity_rank) (severity_rank "LOW") r hmemr
    have hle : ∀ x ∈ occ.map severity_rank, x ≤ r := by
      intro x hx
      obtain ⟨s, hs, rfl⟩ := List.mem_map.mp hx
      exact hub s hs
    have hb := foldl_max_le (occ.map severity_rank) (severity_rank "LOW") r hle (by omega)
    omega
  rcases foldl_hstep_mem occ "LOW" with hL | hIn
  · rw [hL, hlow] at hrank
    exfalso
    omega
  · exact huniq _ (hocc _ hIn) hrank

/-- The fold of the strict-improvement update from LOW computes the
specification-side highest label when every label is one of the five. -/
theorem foldl_hstep_specHighest (occ : List String)
    (hocc : ∀ s ∈ occ, s ∈ severityLabels) :
    occ.foldl hstep "LOW" = specHighestSeverity occ := by
  by_cases hc : "CRITICAL" ∈ occ
  · rw [specHighestSeverity, if_pos hc]
    refine foldl_hstep_eq_label occ hocc "CRITICAL" hc 5 (by decide) (by decide) ?_ (by decide)
    intro s hs
    rcases (mem_severityLabels_iff s).mp (hocc s hs) with rfl | rfl | rfl | rfl | rfl <;> decide
  · by_cases hh : "HIGH" ∈ occ
    · rw [specHighestSeverity, if_neg hc, if_pos hh]
      refine foldl_hstep_eq_label occ hocc "HIGH" hh 4 (by decide) (by decide) ?_ (by decide)
      intro s hs
      rcases (mem_severityLabels_iff s).mp (hocc s hs) with rfl | rfl | rfl | rfl | rfl
      · exact absurd hs hc
      all_goals decide
    · by_cases hm : "MEDIUM" ∈ occ
      · rw [specHighestSeverity, if_neg hc, if_neg hh, if_pos hm]
        refine foldl_hstep_eq_label occ hocc "MEDIUM" hm 3 (by decide) (by decide) ?_ (by decide)
        intro s hs
        rcases (mem_severityLabels_iff s).mp (hocc s hs) with rfl | rfl | rfl | rfl | rfl
        · exact absurd hs hc
        · exact absurd hs hh
        all_goals decide
      · rw [specHighestSeverity, if_neg hc, if_neg hh, if_neg hm]
        refine foldl_hstep_fix occ "LOW" ?_
        intro s hs
        rcases (mem_severityLabels_iff s).mp (hocc s hs) with rfl | rfl | rfl | rfl | rfl
        · exact absurd hs hc
        · exact absurd hs hh
        · exact absurd hs hm
        all_goals decide

/-! ## Claims -/

/-- C1: with an empty cache, a non-empty name, a non-wildcard version and a
vulnerability service that answers HTTP 429 (with a JSON body and no vulns
array) on every attempt, `lookup` does sleep 1s, 2s and 4s after attempts
0, 1 and 2 — but it then does not raise: the loop falls through, the last
429 response's body is parsed as a payload, and an empty vulnerability list
is returned and cached. -/
theorem lookup_exhausted_rate_limit_returns_empty :
    lookup noFloat alwaysRateLimited [] "PyPI" "requests" "2.0.0" =
      ⟨[1, 2, 4], .ok [], [(("pypi", "requests", "2.0.0"), [])]⟩ := rfl

/-- C2: a file named requirements-dev.txt is detected as a manifest by the
wildcard rule, and its content is well-formed pip requirements that the pip
strategy would parse into a pypi dependency — but `parse_manifest` looks the
name up in the handler table by exact match only, finds no handler whatever
the unembedded handlers do, and returns the empty list. -/
theorem requirements_wildcard_not_dispatched (h1 h2 h3 h4 h5 h6 h7 : Handler) :
    detect_manifests [⟨some "requirements-dev.txt", "requirements-dev.txt"⟩] =
      ["requirements-dev.txt"] ∧
    parse_manifest (mkHANDLERS h1 h2 h3 h4 h5 h6 h7) "requirements-dev.txt" "flask==1.0.0" = [] ∧
    parse_requirements_txt "flask==1.0.0" "requirements-dev.txt" =
      [⟨"pypi", "flask", "1.0.0", "runtime", "requirements-dev.txt"⟩] :=
  ⟨by decide, rfl, by decide⟩

/-- Instantiation of the preceding dispatch-gap statement at concrete
handlers. -/
theorem requirements_wildcard_not_dispatched_witness :
    detect_manifests [⟨some "requirements-dev.txt", "requirements-dev.txt"⟩] =
      ["requirements-dev.txt"] ∧
    parse_manifest (mkHANDLERS inertHandler inertHandler inertHandler inertHandler inertHandler
      inertHandler inertHandler) "requirements-dev.txt" "flask==1.0.0" = [] ∧
    parse_requirements_txt "flask==1.0.0" "requirements-dev.txt" =
      [⟨"pypi", "flask", "1.0.0", "runtime", "requirements-dev.txt"⟩] :=
  requirements_wildcard_not_dispatched inertHandler inertHandler inertHandler inertHandler
    inertHandler inertHandler inertHandler

/-- C3 counterexample: an advisory whose severity entry carries the type
label CVSS_V3 is normalized to a record whose severity is the verbatim
string CVSS_V3, which is outside the five enumerated values — unrecognized
labels are not mapped to UNKNOWN. -/
theorem normalize_severity_escapes_enum :
    (normalizeAdvisory noFloat advisoryCvssTyped).toOption.map VulnRecord.severity =
      some "CVSS_V3" ∧
    "CVSS_V3" ∉ severityLabels := by decide

/-- C3 (amended): the normalized severity is the last `type` label among the
advisory's severity entries that carry one, taken verbatim (it may lie
outside the five enumerated values); UNKNOWN appears only as the default
when no entry carries a type label. -/
theorem normalize_severity_is_last_type_label (pf : String → Option Rat) (v : Advisory)
    (rec : VulnRecord) (hok : normalizeAdvisory pf v = .ok rec) :
    rec.severity = (v.severity.filterMap SevEntry.stype).getLastD "UNKNOWN" := by
  cases href : referenceUrl v.references with
  | error e => simp [normalizeAdvisory, href] at hok
  | ok u =>
    simp only [normalizeAdvisory, href, Except.ok.injEq] at hok
    rw [← hok]
    exact sevFold_fst pf v.severity "UNKNOWN" none

/-- Instantiation of the last-type-label statement at a concrete advisory. -/
theorem normalize_severity_is_last_type_label_witness :
    (⟨"GHSA-2222", "overflow", "CVSS_V3", none, "", [], ""⟩ : VulnRecord).severity =
      (advisoryCvssTyped.severity.filterMap SevEntry.stype).getLastD "UNKNOWN" :=
  normalize_severity_is_last_type_label noFloat advisoryCvssTyped _ rfl

/-- C4 counterexample: a repository whose only vulnerability has severity
UNKNOWN is summarised with highest_severity LOW — a label that does not
occur — because the accumulator starts at LOW and UNKNOWN does not outrank
it. -/
theorem repo_risk_unknown_only_gives_low :
    (repo_risk [⟨⟨some "runtime"⟩, [⟨some "UNKNOWN"⟩]⟩]).highest_severity = "LOW" ∧
    occurringSeverities [⟨⟨some "runtime"⟩, [⟨some "UNKNOWN"⟩]⟩] = ["UNKNOWN"] ∧
    ("LOW" : String) ≠ "UNKNOWN" := by decide

/-- C4 (amended): when every vulnerability reports one of the five labels,
highest_severity is the maximum-ranked label that occurs whenever one of
MEDIUM, HIGH or CRITICAL occurs; otherwise it is LOW — also when only
LOW- or UNKNOWN-ranked labels occur, or none at all. -/
theorem repo_risk_highest_matches_spec (items : List FindingItem)
    (hall : ∀ it ∈ items, ∀ v ∈ it.vulnerabilities,
      ∃ s, v.severity = some s ∧ s ∈ severityLabels) :
    (repo_risk items).highest_severity = specHighestSeverity (occurringSeverities items) := by
  have heff := effective_eq_occurring items hall
  have hocc : ∀ s ∈ occurringSeverities items, s ∈ severityLabels := by
    intro s hs
    simp only [occurringSeverities, List.mem_flatMap, List.mem_filterMap] at hs
    obtain ⟨it, hit, v, hv, hveq⟩ := hs
    obtain ⟨s2, hs2, hmem⟩ := hall it hit v hv
    rw [hs2] at hveq
    cases hveq
    exact hmem
  rw [repo_risk, repoRiskGo_highest, heff]
  exact foldl_hstep_specHighest _ hocc

/-- Instantiation of the highest-severity statement at the sample findings. -/
theorem repo_risk_highest_matches_spec_witness :
    (repo_risk repoFindingsSample).highest_severity =
      specHighestSeverity (occurringSeverities repoFindingsSample) :=
  repo_risk_highest_matches_spec repoFindingsSample
    (by
      intro it hit v hv
      simp only [repoFindingsSample, List.mem_cons, List.not_mem_nil, or_false] at hit
      rcases hit with rfl | rfl | rfl
      · simp only [List.mem_singleton] at hv
        subst hv
        exact ⟨"HIGH", rfl, by decide⟩
      · simp at hv
      · simp only [List.mem_singleton] at hv
        subst hv
        exact ⟨"CRITICAL", rfl, by decide⟩)

/-- C5: when an advisory's severity array is a non-empty prefix followed by a
final entry carrying a type label, the normalized severity is exactly that
final label, and the cvss score is the final entry's score put through the
float conversion (absent or unconvertible text leaves it unset). -/
theorem normalize_last_severity_entry_wins (pf : String → Option Rat) (v : Advisory)
    (rec : VulnRecord) (es : List SevEntry) (e : SevEntry) (t : String)
    (hsev : v.severity = es ++ [e]) (_hes : es ≠ []) (ht : e.stype = some t)
    (hok : normalizeAdvisory pf v = .ok rec) :
    rec.severity = t ∧ rec.cvss_score = e.score.bind pf := by
  cases href : referenceUrl v.references with
  | error err => simp [normalizeAdvisory, href] at hok
  | ok u =>
    simp only [normalizeAdvisory, href, Except.ok.injEq] at hok
    rw [← hok]
    have hfold : v.severity.foldl (sevStep pf) ("UNKNOWN", none) =
        sevStep pf (es.foldl (sevStep pf) ("UNKNOWN", none)) e := by
      rw [hsev, List.foldl_append, List.foldl_cons, List.foldl_nil]
    constructor
    · show (v.severity.foldl (sevStep pf) ("UNKNOWN", none)).1 = t
      rw [hfold]
      show e.stype.getD _ = t
      rw [ht, Option.getD_some]
    · show (v.severity.foldl (sevStep pf) ("UNKNOWN", none)).2 = e.score.bind pf
      rw [hfold]
      cases hscore : e.score with
      | none => simp [sevStep, hscore]
      | some raw => simp [sevStep, hscore]

/-- Instantiation of the last-entry-wins statement at the canned advisory
with severities LOW then CRITICAL. -/
theorem normalize_last_severity_entry_wins_witness :
    (⟨"GHSA-9999", "detail text", "CRITICAL", some ((98 : Rat) / 10), "", [],
        "https://example.com/adv"⟩ : VulnRecord).severity = "CRITICAL" ∧
    (⟨"GHSA-9999", "detail text", "CRITICAL", some ((98 : Rat) / 10), "", [],
        "https://example.com/adv"⟩ : VulnRecord).cvss_score =
      (⟨some "CRITICAL", some "9.8"⟩ : SevEntry).score.bind floatNinePointEight :=
  normalize_last_severity_entry_wins floatNinePointEight advisoryLowThenCritical _
    [⟨some "LOW", none⟩] ⟨some "CRITICAL", some "9.8"⟩ "CRITICAL" rfl
    (by decide) rfl rfl

/-- C9: manifest parsing never propagates an error: with no handler
registered for the file name `parse_manifest` answers the empty list, and
when the dispatched handler raises any exception the dispatcher swallows it
and answers the empty list — for every path, every content and every handler
table. -/
theorem parse_manifest_swallows_errors (handlers : List (String × Handler))
    (path content : String) :
    (List.lookup (pathName path) handlers = none →
      parse_manifest handlers path content = []) ∧
    (∀ h e, List.lookup (pathName path) handlers = some h →
      h content path = .error e → parse_manifest handlers path content = []) := by
  constructor
  · intro hn
    simp [parse_manifest, hn]
  · intro h e hl he
    simp [parse_manifest, hl, he]

/-- Instantiation of the swallowing statement: an erroring package.json
handler still produces the empty list. -/
theorem parse_manifest_swallows_errors_witness :
    parse_manifest failingJsonTable "package.json" "not json" = [] :=
  (parse_manifest_swallows_errors failingJsonTable "package.json" "not json").2
    (fun _ _ => .error .jsonDecodeError) .jsonDecodeError rfl rfl

/-- C10: any go.mod line whose stripped text starts with the keyword require
contributes no dependency (inserting it anywhere changes nothing) — in
particular a single-line `require name version` declaration is discarded
whole — while a bare `name version` line produces a record. -/
theorem go_mod_require_lines_contribute_nothing (path ℓ : String) (pre post : List String)
    (hreq : ("require".data).isPrefixOf (pyStripL ℓ.data) = true) :
    goModLinesDeps path (pre ++ ℓ :: post) = goModLinesDeps path (pre ++ post) ∧
    parse_go_mod "require example.com/lib v1.2.3" "go.mod" = [] ∧
    parse_go_mod "example.com/lib v1.2.3" "go.mod" =
      [⟨"go", "example.com/lib", "v1.2.3", "runtime", "go.mod"⟩] := by
  refine ⟨?_, by decide, by decide⟩
  have hline : goModLineDeps path ℓ = [] := by
    obtain ⟨t, ht⟩ : ∃ t, "require".data ++ t = pyStripL ℓ.data :=
      List.isPrefixOf_iff_prefix.mp hreq
    have hd : "require".data = ['r', 'e', 'q', 'u', 'i', 'r', 'e'] := rfl
    rw [hd] at ht
    unfold goModLineDeps
    rw [← ht]
    simp [List.isPrefixOf]
  simp [goModLinesDeps, hline]

/-- Instantiation of the require-line statement at a concrete module file. -/
theorem go_mod_require_lines_contribute_nothing_witness :
    goModLinesDeps "go.mod" ([] ++ "require golang.org/x/text v0.3.7" :: []) =
      goModLinesDeps "go.mod" ([] ++ []) ∧
    parse_go_mod "require example.com/lib v1.2.3" "go.mod" = [] ∧
    parse_go_mod "example.com/lib v1.2.3" "go.mod" =
      [⟨"go", "example.com/lib", "v1.2.3", "runtime", "go.mod"⟩] :=
  go_mod_require_lines_contribute_nothing "go.mod" "require golang.org/x/text v0.3.7"
    [] [] (by decide)

/-- C6: the version normalizer reproduces the spec's examples without inner
whitespace, but `>= 1.2.3` keeps its interior space (the regex class as
written does not contain whitespace), and a leading letter s is stripped —
the raw-string class `[~^><=\\s]` holds a literal backslash and a literal s
instead of the whitespace class. -/
theorem clean_version_strips_literal_class :
    _clean_version ">=1.2.3" = "1.2.3" ∧ _clean_version "^2.0.0" = "2.0.0" ∧
    _clean_version "" = "" ∧
    _clean_version ">= 1.2.3" = " 1.2.3" ∧ (" 1.2.3" : String) ≠ "1.2.3" ∧
    _clean_version "semver" = "emver" := by decide

/-- C8: dependency_risk is 0 on an empty vulnerability list and otherwise
the maximum of the specification's severity weights over the severities
present, plus 1 exactly when the dependency's scope is runtime — in
particular a single HIGH vulnerability scores 5 at runtime scope and 4 at
dev scope. -/
theorem dependency_risk_matches_spec (dep : DepDict) (vulns : List VulnDict)
    (hall : ∀ v ∈ vulns, ∃ s, v.severity = some s ∧ s ∈ severityLabels) :
    dependency_risk dep vulns =
      (if vulns = [] then 0
       else ((vulns.filterMap VulnDict.severity).map claimSeverityWeight).foldr Nat.max 0 +
         (if dep.scope = some "runtime" then 1 else 0)) ∧
    dependency_risk ⟨some "runtime"⟩ [⟨some "HIGH"⟩] = 5 ∧
    dependency_risk ⟨some "dev"⟩ [⟨some "HIGH"⟩] = 4 := by
  refine ⟨?_, by decide, by decide⟩
  have hmaps := ranks_eq_claim_weights vulns hall
  cases vulns with
  | nil => simp [dependency_risk]
  | cons v vs =>
    rw [← hmaps, if_neg (List.cons_ne_nil v vs)]
    simp only [dependency_risk, List.isEmpty_cons, Bool.false_eq_true, if_false,
      List.map_cons, List.foldr_cons]
    rw [pyMaxNat, foldl_nat_max]

/-- Instantiation of the dependency score statement at a runtime dependency
with one HIGH vulnerability. -/
theorem dependency_risk_matches_spec_witness :
    dependency_risk ⟨some "runtime"⟩ [⟨some "HIGH"⟩] =
      (if ([⟨some "HIGH"⟩] : List VulnDict) = [] then 0
       else (([⟨some "HIGH"⟩] : List VulnDict).filterMap VulnDict.severity).map
          claimSeverityWeight |>.foldr Nat.max 0 +
         (if (⟨some "runtime"⟩ : DepDict).scope = some "runtime" then 1 else 0)) ∧
    dependency_risk ⟨some "runtime"⟩ [⟨some "HIGH"⟩] = 5 ∧
    dependency_risk ⟨some "dev"⟩ [⟨some "HIGH"⟩] = 4 :=
  dependency_risk_matches_spec ⟨some "runtime"⟩ [⟨some "HIGH"⟩]
    (by
      intro v hv
      simp only [List.mem_singleton] at hv
      subst hv
      exact ⟨"HIGH", rfl, by decide⟩)

/-- C7: for an advisory carrying an identifier but no aliases, the
normalized id is the empty string, not the identifier — the `or` binds
inside the conditional, whose else branch ignores the identifier. With an
alias present the identifier is used. -/
theorem normalize_id_empty_when_no_aliases :
    (normalizeAdvisory noFloat advisoryIdWithoutAliases).toOption.map VulnRecord.rid =
      some "" ∧
    advisoryIdWithoutAliases.advId = some "GHSA-1234" ∧
    (normalizeAdvisory noFloat advisoryIdWithAlias).toOption.map VulnRecord.rid =
      some "GHSA-1234" := by decide

end RepoChkr
